import Mathlib

/-!
Verification of the reconciliation-and-transfer engine of `urbackup-clone-btrfs`.

The Python source (`src/urbackup-clone-btrfs.py`) is shallowly embedded:
pure functions become Lean functions, filesystem probes (`os.path.exists`,
`btrfs property get ... ro`) become oracle parameters, and the stateful parts
of `main` become explicit state passing over an abstract destination state
or an event trace.  Python truthiness on strings (`if s:`) is embedded as
`s ≠ ""`, and on optional strings as "is `some` and non-empty".
-/

namespace UrbClone

/-- Btrfs subvolume record, mirroring the `Subvol` dataclass
(fields `id`, `uuid`, `rel_path`, `parent_uuid`, `received_uuid`). -/
structure Subvol where
  id : Nat
  uuid : String
  rel_path : String
  parent_uuid : String
  received_uuid : String
deriving DecidableEq, Repr

/-- Mirrors `normalize_uuid`: btrfs prints `-` for a missing uuid, the
program normalizes it to the empty string. -/
def normalize_uuid (uuid : String) : String :=
  if uuid ≠ "-" then uuid else ""

/-- Model of `os.path.join(a, b)` for POSIX paths as used by the program
(two components): an absolute second component wins; otherwise a slash is
inserted unless `a` is empty or already ends with a slash. -/
def joinPath (a b : String) : String :=
  if b.startsWith "/" then b
  else if a = "" ∨ a.endsWith "/" then a ++ b
  else a ++ "/" ++ b

/-- Mirrors the list `src_uuids = [src_subvol.uuid, src_subvol.received_uuid]`
built at the top of `get_dst_subvol_by_src_subvol`. -/
def src_uuids (src_subvol : Subvol) : List String :=
  [src_subvol.uuid, src_subvol.received_uuid]

/-- Mirrors `get_dst_subvol_by_src_subvol` (source lines 442-460): scan the
destination list in order; return the first destination subvol whose
`received_uuid` is non-empty (Python truthiness), is one of the source's
`uuid`/`received_uuid`, and whose `rel_path` equals the source's `rel_path`;
return `none` (Python `None`) when the loop falls through. -/
def get_dst_subvol_by_src_subvol (src_subvol : Subvol) :
    List Subvol → Option Subvol
  | [] => none
  | dst_subvol :: rest =>
    if dst_subvol.received_uuid ≠ "" then
      if dst_subvol.received_uuid ∈ src_uuids src_subvol then
        if dst_subvol.rel_path = src_subvol.rel_path then
          some dst_subvol
        else get_dst_subvol_by_src_subvol src_subvol rest
      else get_dst_subvol_by_src_subvol src_subvol rest
    else get_dst_subvol_by_src_subvol src_subvol rest

/-- The correspondence relation as worded by the spec (section 3): a
destination record corresponds to a source record iff its received identity
is non-empty, is one of the source's identity / received identity, and the
relative paths agree. -/
def Corresponds (dst src : Subvol) : Prop :=
  dst.received_uuid ≠ "" ∧
    (dst.received_uuid = src.uuid ∨ dst.received_uuid = src.received_uuid) ∧
    dst.rel_path = src.rel_path

instance (dst src : Subvol) : Decidable (Corresponds dst src) := by
  unfold Corresponds
  infer_instance

/-- Mirrors the classification in `main` (lines 951-959): a source subvol is
pending exactly when the destination lookup returns nothing (`if dst_subvol:`
falls through, so the run proceeds to transfer it). -/
def src_is_pending (src_subvol : Subvol) (dst_subvols : List Subvol) : Bool :=
  (get_dst_subvol_by_src_subvol src_subvol dst_subvols).isNone

/-- Mirrors `get_subvol_rel_path_by_uuid` (lines 756-760): first subvol in
list order whose `uuid` matches, returning its `rel_path`; `none` otherwise. -/
def get_subvol_rel_path_by_uuid (uuid : String) : List Subvol → Option String
  | [] => none
  | subvol :: rest =>
    if subvol.uuid = uuid then some subvol.rel_path
    else get_subvol_rel_path_by_uuid uuid rest

/-- Mirrors `get_valid_src_parent_rel_path` (lines 763-781).  The two
filesystem probes are oracle parameters: `pathExists` for
`os.path.exists` (applied to the joined full path, as in the source) and
`isReadonly` for `subvol_is_readonly args.src rel_path`.  Note the source
guards with Python truthiness `if parent_rel_path:`, which is false both for
`None` and for an empty string. -/
def get_valid_src_parent_rel_path (pathExists : String → Bool)
    (isReadonly : String → Bool) (src_dir : String)
    (parent_uuid : String) (src_subvols : List Subvol) : Option String :=
  if parent_uuid ≠ "" then
    match get_subvol_rel_path_by_uuid parent_uuid src_subvols with
    | some parent_rel_path =>
      if parent_rel_path ≠ "" then
        if pathExists (joinPath src_dir parent_rel_path) then
          if isReadonly parent_rel_path then some parent_rel_path
          else none
        else none
      else none
    | none => none
  else none

/-- Mirrors the construction of `send_cmd` in `do_send_receive`
(lines 534-540): `['btrfs','-q','send']`, then `['-p', parent_full_path]`
only when `src_parent_rel_path` is truthy (not `None`, not empty), then the
send path. -/
def do_send_receive_send_cmd (src_path src_rel_path : String)
    (src_parent_rel_path : Option String) : List String :=
  (["btrfs", "-q", "send"] ++
    (match src_parent_rel_path with
     | some p => if p ≠ "" then ["-p", joinPath src_path p] else []
     | none => [])) ++ [joinPath src_path src_rel_path]

/-- Mirrors `build_subvols` (lines 398-439), abstracting the listing
command's output as a list of raw lines and the per-line regex extraction
plus `normalize_uuid` as the `parse` parameter (a line that fails to parse is
skipped after the error handler continues, i.e. `none`):
the parsed records are accumulated in line order and finally returned
sorted by `subvol.id` (Python's stable `sorted` with key `subvol.id`,
embedded as a stable merge sort). -/
def build_subvols (parse : String → Option Subvol) (lines : List String) :
    List Subvol :=
  (lines.filterMap parse).mergeSort (fun a b => decide (a.id ≤ b.id))

/-- What the central error handler does with control flow (lines 182-186):
with `--ignore-errors` it logs and continues, otherwise it raises
`SystemExit 1` via `sys.exit(1)`. -/
inductive RunControl where
  | proceed
  | exitWith (code : Int)
deriving DecidableEq, Repr

/-- Mirrors the tail of `error_handler` (lines 182-186): continue when
`args.ignore_errors`, else `sys.exit(1)`. -/
def error_handler_control (ignore_errors : Bool) : RunControl :=
  if ignore_errors then RunControl.proceed else RunControl.exitWith 1

/-- Mirrors the error handling at the end of `do_send_receive`
(lines 596-600): after `(result, errors) = recv_proc.communicate()`, the
error handler is invoked iff the captured error text is non-empty
(`if errors:`).  The consumer's return code is available on `recv_proc` but
is never examined by the source, hence the unused parameter. -/
def do_send_receive_reports_failure (errors : String)
    (_recv_returncode : Int) : Bool :=
  decide (errors ≠ "")

/-- Composition of the pipeline error check with the central handler:
`some control` when the handler fires (lines 598-600), `none` when the
transfer is considered fine and nothing is reported. -/
def do_send_receive_outcome (errors : String) (recv_returncode : Int)
    (ignore_errors : Bool) : Option RunControl :=
  if do_send_receive_reports_failure errors recv_returncode then
    some (error_handler_control ignore_errors)
  else none

/-- How one execution of `main(args)` can end, as seen by the
`if __name__ == "__main__"` block (lines 1021-1036). -/
inductive MainOutcome where
  | normal
  | systemExit (code : Int)
  | keyboardInterrupt
  | otherException
deriving DecidableEq, Repr

/-- Mirrors the top-level dispatcher (lines 1021-1036): every branch of the
`try` around `main(args)` is handled (`except SystemExit: pass`,
`except KeyboardInterrupt: ...`, bare `except: print_exc()`), execution then
falls through the `finally` cleanup to the end of the script, so the
interpreter always exits with status 0 -- the code carried by a
`SystemExit` raised inside `main` (e.g. `sys.exit(1)` in `error_handler`)
is discarded by the `pass` branch. -/
def main_block_exit_code (outcome : MainOutcome) : Nat :=
  match outcome with
  | MainOutcome.normal => 0
  | MainOutcome.systemExit _ => 0
  | MainOutcome.keyboardInterrupt => 0
  | MainOutcome.otherException => 0

/-- Mirrors `get_max_column_sizes` (lines 704-716) with rows of
already-stringified values (the source applies `len(str(v))`): `zip(*data)`
truncates to the shortest row, and each output position is the maximum
string length found in that column. -/
def get_max_column_sizes (data : List (List String)) : List Nat :=
  let ncols :=
    match data with
    | [] => 0
    | r :: rest => rest.foldl (fun m row => Nat.min m row.length) r.length
  (List.range ncols).map (fun i =>
    (data.map (fun row => (row.getD i "").length)).foldl Nat.max 0)

/-- Observable steps of `main` (lines 896-983) that touch or consult the
destination: building an inventory (source or destination), the rsync pass,
the stray-deletion pass, a matching decision against the cached destination
inventory, deleting one stale destination subvol inside the loop, one
send/receive transfer, and a stats display. -/
inductive Event where
  | buildSrc
  | buildDst
  | rsync
  | deleteStrays
  | lookupDst
  | deleteOneDst
  | transfer
  | stats
deriving DecidableEq, Repr

/-- How one source subvol plays out in the `for src_subvol in src_subvols`
loop of `main`: the source path vanished (line 944, `continue`), a valid
destination copy already exists (line 952, `continue`), it is pending with
no leftover destination path, or pending with a stale destination path that
is deleted first (line 961). -/
inductive SrcCase where
  | missing
  | matched
  | pendingFresh
  | pendingStale
deriving DecidableEq, Repr

/-- Mirrors the stats-refresh block at the bottom of the transfer loop
(lines 973-980): only when `args.verbose > 0` and `SHOW_STATS_INTERVAL > 0`
is the counter incremented; each time it reaches a multiple of the interval
the destination inventory is rebuilt (unless `--dry-run`) and stats are
shown.  Returns the emitted events and the updated counter. -/
def stats_refresh_block (dry_run : Bool) (verbose interval counter : Nat) :
    List Event × Nat :=
  if 0 < verbose ∧ 0 < interval then
    let c := counter + 1
    (if c % interval = 0 then
      (if dry_run then [] else [Event.buildDst]) ++ [Event.stats]
     else [], c)
  else ([], counter)

/-- Event trace of the transfer loop of `main` (lines 928-980), given the
per-subvol case classifications in source order and the running
`show_stats_counter`.  A skipped subvol emits nothing; a matched one emits
only its matching decision; a pending one emits the matching decision,
optionally the stale-destination deletion, the transfer, and the
stats-refresh block. -/
def main_loop_events (dry_run : Bool) (verbose interval : Nat) :
    List SrcCase → Nat → List Event
  | [], _ => []
  | c :: rest, counter =>
    match c with
    | SrcCase.missing => main_loop_events dry_run verbose interval rest counter
    | SrcCase.matched =>
      Event.lookupDst :: main_loop_events dry_run verbose interval rest counter
    | SrcCase.pendingFresh =>
      let blk := stats_refresh_block dry_run verbose interval counter
      Event.lookupDst :: Event.transfer ::
        (blk.1 ++ main_loop_events dry_run verbose interval rest blk.2)
    | SrcCase.pendingStale =>
      let blk := stats_refresh_block dry_run verbose interval counter
      Event.lookupDst :: Event.deleteOneDst :: Event.transfer ::
        (blk.1 ++ main_loop_events dry_run verbose interval rest blk.2)

/-- Event trace of one run of `main` (lines 896-983): build the source and
destination inventories, show stats, rsync the miscellaneous files, run the
stray-deletion pass only under `--delete-strays`, run the transfer loop with
the counter starting at 0, and show final stats.  No inventory rebuild is
sequenced between the stray-deletion pass and the loop. -/
def main_events (delete_strays dry_run : Bool) (verbose interval : Nat)
    (cases : List SrcCase) : List Event :=
  [Event.buildSrc, Event.buildDst, Event.stats, Event.rsync] ++
    (if delete_strays then [Event.deleteStrays] else []) ++
    main_loop_events dry_run verbose interval cases 0 ++ [Event.stats]

/-- Number of loop iterations that reach `do_send_receive`. -/
def num_transfers (cases : List SrcCase) : Nat :=
  cases.countP (fun c =>
    match c with
    | SrcCase.pendingFresh => true
    | SrcCase.pendingStale => true
    | _ => false)

/-- Abstract destination state: the relative paths of the subvolumes
present on the destination filesystem, and the top-level directory names
there (as scanned by `os.scandir`). -/
structure DstState where
  subvol_paths : List String
  dirs : List String
deriving DecidableEq, Repr

/-- Destination-mutating external commands issued through `run_cmd`, and
the no-op `['echo', '(--dry-run) noop']` that `run_cmd` substitutes under
dry-run (lines 342-344). -/
inductive Cmd where
  | btrfs_subvol_delete (dst_rel_path : String)
  | rsync_misc
  | echo_noop
deriving DecidableEq, Repr

/-- Basename of the `RSYNC_DST` auxiliary backup directory
`'{dst}/_urbcb_misc_backups'`. -/
def RSYNC_DST_BASENAME : String := "_urbcb_misc_backups"

/-- Effect of each external command on the destination state:
`btrfs subvolume delete` removes that subvolume path, the rsync pass
materializes the auxiliary backup directory (via `--mkpath`), and `echo`
touches nothing. -/
def interpCmd : Cmd → DstState → DstState
  | Cmd.btrfs_subvol_delete p, st =>
    { st with subvol_paths := st.subvol_paths.filter (fun q => q ≠ p) }
  | Cmd.rsync_misc, st =>
    if RSYNC_DST_BASENAME ∈ st.dirs then st
    else { st with dirs := RSYNC_DST_BASENAME :: st.dirs }
  | Cmd.echo_noop, st => st

/-- Mirrors `run_cmd` (lines 336-346) at the state level: under dry-run the
command list is replaced with the `echo` no-op before anything runs,
otherwise the given command executes. -/
def run_cmd_state (cmd : Cmd) (dryrun : Bool) (st : DstState) : DstState :=
  interpCmd (if dryrun then Cmd.echo_noop else cmd) st

/-- Mirrors `delete_dst_subvols` (lines 603-629) at the state level: for
each path, `run_cmd(['btrfs','subvolume','delete',...], dryrun=args.dry_run)`. -/
def delete_dst_subvols_state (dry_run : Bool) (paths : List String)
    (st : DstState) : DstState :=
  paths.foldl
    (fun s p => run_cmd_state (Cmd.btrfs_subvol_delete p) dry_run s) st

/-- Mirrors `delete_dst_directory` (lines 632-661) at the state level: for
each path, under dry-run the iteration logs and `continue`s, otherwise
`os.rmdir` removes the directory (failure of `rmdir` is reported through the
error handler and leaves the state as-is; the success case is modeled). -/
def delete_dst_directory_state (dry_run : Bool) (paths : List String)
    (st : DstState) : DstState :=
  paths.foldl
    (fun s p =>
      if dry_run then s
      else { s with dirs := s.dirs.filter (fun q => q ≠ p) }) st

/-- Mirrors the stray-path computation of `delete_stray_destinations`
(lines 670-675): `list(set(dst_subvol_paths) - set(src_subvol_paths))`.
Python's set difference is embedded as a deduplicated filter; its element
order is unspecified in the source, membership is the meaningful content. -/
def stray_dst_subvol_paths (src_subvols dst_subvols : List Subvol) :
    List String :=
  ((dst_subvols.map (fun s => s.rel_path)).filter
    (fun p => decide (¬ p ∈ src_subvols.map (fun s => s.rel_path)))).dedup

/-- Mirrors the stray-directory computation (lines 684-698): destination
top-level directory names with no matching source directory name, after the
`RSYNC_DST` basename has been excluded; again a set difference. -/
def stray_dst_dirs (src_dirs dst_dirs : List String) : List String :=
  ((dst_dirs.filter (fun d => d ≠ RSYNC_DST_BASENAME)).filter
    (fun d => decide (¬ d ∈ src_dirs))).dedup

/-- Mirrors `delete_stray_destinations` (lines 664-701) at the state level:
delete the stray subvolumes (when any), then delete the stray directories
(when any), both through the dry-run-aware primitives. -/
def delete_stray_destinations_state (dry_run : Bool)
    (src_subvols dst_subvols : List Subvol) (src_dirs : List String)
    (st : DstState) : DstState :=
  let strays := stray_dst_subvol_paths src_subvols dst_subvols
  let st1 :=
    if strays = [] then st else delete_dst_subvols_state dry_run strays st
  let sdirs := stray_dst_dirs src_dirs st1.dirs
  if sdirs = [] then st1 else delete_dst_directory_state dry_run sdirs st1

/-- Mirrors `makedirs_if_missing` (lines 479-488) at the state level:
nothing happens when the path exists; otherwise the directory is created
unless dry-run. -/
def makedirs_if_missing_state (dry_run : Bool) (path : String)
    (st : DstState) : DstState :=
  if path ∈ st.dirs then st
  else if dry_run then st
  else { st with dirs := path :: st.dirs }

/-- Model of `os.path.dirname` for the relative paths the program builds
(everything before the last slash). -/
def dirname (p : String) : String :=
  String.intercalate "/" (p.splitOn "/").dropLast

/-- Mirrors `do_send_receive` (lines 491-600) at the state level: under
dry-run it returns right after logging (line 518-520), before the directory
preparation and before any pipeline process is launched; otherwise the
destination parent directory is prepared and the consumer (`btrfs receive`)
materializes the subvolume at the destination relative path. -/
def do_send_receive_state (dry_run : Bool)
    (_src_rel_path dst_rel_path : String) (st : DstState) : DstState :=
  if dry_run then st
  else
    let st1 := makedirs_if_missing_state dry_run (dirname dst_rel_path) st
    { st1 with subvol_paths := dst_rel_path :: st1.subvol_paths }

/-- Mirrors `rsync_copy_misc` (lines 822-862) at the state level: one
`run_cmd(..., dryrun=args.dry_run)` per entry of `RSYNC_SRC_LIST`. -/
def rsync_copy_misc_state (dry_run : Bool) (st : DstState) : DstState :=
  (["/var/urbackup", "clients", "urbackup"]).foldl
    (fun s _ => run_cmd_state Cmd.rsync_misc dry_run s) st

/-- Mirrors the guarded stray pass of `main` (lines 923-925): only under
`--delete-strays` is `delete_stray_destinations` invoked. -/
def main_stray_stage (delete_strays dry_run : Bool)
    (src_subvols dst_subvols : List Subvol) (src_dirs : List String)
    (st : DstState) : DstState :=
  if delete_strays then
    delete_stray_destinations_state dry_run src_subvols dst_subvols
      src_dirs st
  else st

/-- Mirrors one iteration of the transfer loop of `main` (lines 929-971) at
the state level: skip when the source path is gone; skip when a valid
destination copy exists; otherwise delete a stale destination subvol if one
occupies the path, then run the send/receive. -/
def main_step_state (dry_run : Bool) (dst_subvols : List Subvol)
    (src_exists : String → Bool) (src_subvol : Subvol) (st : DstState) :
    DstState :=
  if src_exists src_subvol.rel_path then
    match get_dst_subvol_by_src_subvol src_subvol dst_subvols with
    | some _ => st
    | none =>
      let st1 :=
        if src_subvol.rel_path ∈ st.subvol_paths then
          delete_dst_subvols_state dry_run [src_subvol.rel_path] st
        else st
      do_send_receive_state dry_run src_subvol.rel_path src_subvol.rel_path
        st1
  else st

/-- Destination state across one whole run of `main` (lines 896-983): the
rsync pass, the guarded stray pass, then the transfer loop over the source
inventory. -/
def main_run_state (delete_strays dry_run : Bool)
    (src_subvols dst_subvols : List Subvol) (src_dirs : List String)
    (src_exists : String → Bool) (st : DstState) : DstState :=
  let st1 := rsync_copy_misc_state dry_run st
  let st2 := main_stray_stage delete_strays dry_run src_subvols dst_subvols
    src_dirs st1
  src_subvols.foldl
    (fun s sv => main_step_state dry_run dst_subvols src_exists sv s) st2

/-!
Helper lemmas.
-/

/-- The destination lookup is the first-match scan of the destination list
with the correspondence predicate. -/
lemma get_dst_eq_find? (s : Subvol) (D : List Subvol) :
    get_dst_subvol_by_src_subvol s D =
      D.find? (fun d => decide (Corresponds d s)) := by
  induction D with
  | nil => rfl
  | cons d rest ih =>
    rw [List.find?_cons]
    by_cases hc : Corresponds d s
    · rw [decide_eq_true hc]
      obtain ⟨h1, h2, h3⟩ := hc
      have hmem : d.received_uuid ∈ src_uuids s := by
        simp [src_uuids]
        tauto
      simp [get_dst_subvol_by_src_subvol, h1, h3, hmem]
    · rw [decide_eq_false hc]
      by_cases h1 : d.received_uuid = "" <;>
        by_cases h2 : d.received_uuid ∈ src_uuids s <;>
        by_cases h3 : d.rel_path = s.rel_path <;>
        simp [get_dst_subvol_by_src_subvol, h1, h2, h3, ih]
      exact absurd ⟨h1, by simpa [src_uuids] using h2, h3⟩ hc

/-- A successful `find?` splits its list at the returned element, with no
earlier element satisfying the predicate. -/
lemma find?_first_match {α : Type} (p : α → Bool) (l : List α) (a : α)
    (h : l.find? p = some a) :
    ∃ pre post, l = pre ++ a :: post ∧ ∀ x ∈ pre, ¬ p x = true := by
  induction l with
  | nil => simp at h
  | cons b rest ih =>
    rw [List.find?_cons] at h
    cases hb : p b with
    | true =>
      rw [hb] at h
      simp only [Option.some.injEq] at h
      subst h
      exact ⟨[], rest, rfl, by simp⟩
    | false =>
      rw [hb] at h
      obtain ⟨pre, post, hdec, hpre⟩ := ih h
      refine ⟨b :: pre, post, by simp [hdec], ?_⟩
      intro x hx
      rcases List.mem_cons.mp hx with rfl | hx
      · simp [hb]
      · exact hpre x hx

/-!
Claim theorems.
-/

/-- C1: for every source record and destination inventory, the lookup
`get_dst_subvol_by_src_subvol` returns only destination records whose
received identity is non-empty, lies in the source's identity /
received-identity pair, and whose relative path equals the source's; some
record is returned exactly when such a record exists in the inventory, and
when none exists the source record is classified as pending. -/
theorem C1_lookup_correspondence (s : Subvol) (D : List Subvol) :
    (∀ d, get_dst_subvol_by_src_subvol s D = some d →
      d ∈ D ∧ d.received_uuid ≠ "" ∧
        (d.received_uuid = s.uuid ∨ d.received_uuid = s.received_uuid) ∧
        d.rel_path = s.rel_path) ∧
    ((get_dst_subvol_by_src_subvol s D).isSome = true ↔
      ∃ d ∈ D, d.received_uuid ≠ "" ∧
        (d.received_uuid = s.uuid ∨ d.received_uuid = s.received_uuid) ∧
        d.rel_path = s.rel_path) ∧
    (src_is_pending s D = true ↔
      ∀ d ∈ D, ¬ (d.received_uuid ≠ "" ∧
        (d.received_uuid = s.uuid ∨ d.received_uuid = s.received_uuid) ∧
        d.rel_path = s.rel_path)) := by
  refine ⟨?_, ?_, ?_⟩
  · intro d hd
    rw [get_dst_eq_find?] at hd
    have hm := List.mem_of_find?_eq_some hd
    have hp := List.find?_some hd
    rw [decide_eq_true_eq] at hp
    exact ⟨hm, hp⟩
  · rw [get_dst_eq_find?, List.find?_isSome]
    constructor
    · rintro ⟨d, hd, hp⟩
      rw [decide_eq_true_eq] at hp
      exact ⟨d, hd, hp⟩
    · rintro ⟨d, hd, hp⟩
      exact ⟨d, hd, decide_eq_true hp⟩
  · rw [src_is_pending, Option.isNone_iff_eq_none, get_dst_eq_find?,
      List.find?_eq_none]
    constructor
    · intro h d hd hp
      exact h d hd (decide_eq_true hp)
    · intro h d hd hp
      exact h d hd (by simpa [Corresponds] using of_decide_eq_true hp)

/-- Witness for C1 at a concrete input: the spec's own example, source
record with identity A at path h/2024 and a destination record received
from A at the same path. -/
theorem C1_lookup_correspondence_witness :
    (Subvol.mk 2 "X" "h/2024" "" "A") ∈
        [Subvol.mk 2 "X" "h/2024" "" "A"] ∧
      (Subvol.mk 2 "X" "h/2024" "" "A").received_uuid ≠ "" ∧
      ((Subvol.mk 2 "X" "h/2024" "" "A").received_uuid =
          (Subvol.mk 10 "A" "h/2024" "" "").uuid ∨
        (Subvol.mk 2 "X" "h/2024" "" "A").received_uuid =
          (Subvol.mk 10 "A" "h/2024" "" "").received_uuid) ∧
      (Subvol.mk 2 "X" "h/2024" "" "A").rel_path =
        (Subvol.mk 10 "A" "h/2024" "" "").rel_path :=
  (C1_lookup_correspondence (Subvol.mk 10 "A" "h/2024" "" "")
    [Subvol.mk 2 "X" "h/2024" "" "A"]).1
    (Subvol.mk 2 "X" "h/2024" "" "A") (by decide)

/-- C10: when the destination inventory is sorted by id ascending (as
`build_subvols` guarantees), the lookup returns the corresponding record
that appears first in iteration order -- the list splits at it with no
earlier corresponding record -- and that record's id is lowest among all
corresponding records; the later matches influence nothing. -/
theorem C10_first_match_lowest_id (s : Subvol) (D : List Subvol)
    (hD : List.Pairwise (fun a b => a.id ≤ b.id) D) (d : Subvol)
    (h : get_dst_subvol_by_src_subvol s D = some d) :
    (∃ pre post, D = pre ++ d :: post ∧ ∀ x ∈ pre, ¬ Corresponds x s) ∧
    Corresponds d s ∧
    ∀ x ∈ D, Corresponds x s → d.id ≤ x.id := by
  rw [get_dst_eq_find?] at h
  obtain ⟨pre, post, hdec, hpre⟩ := find?_first_match _ D d h
  have hcor : Corresponds d s := by
    have := List.find?_some h
    rwa [decide_eq_true_eq] at this
  refine ⟨⟨pre, post, hdec, fun x hx hc => hpre x hx (decide_eq_true hc)⟩,
    hcor, ?_⟩
  intro x hx hxc
  subst hdec
  rcases List.mem_append.mp hx with hx | hx
  · exact absurd (decide_eq_true hxc) (hpre x hx)
  · rcases List.mem_cons.mp hx with rfl | hx
    · exact le_refl _
    · have := (List.pairwise_append.mp hD).2.1
      exact (List.pairwise_cons.mp this).1 x hx

/-- Witness for C10 at a concrete input with two corresponding destination
records (ids 2 and 5, both received from U at path p): the lookup returns
the id-2 record, which has the lowest id among the matches. -/
theorem C10_first_match_lowest_id_witness :
    (∃ pre post,
        [Subvol.mk 2 "x" "p" "" "U", Subvol.mk 5 "y" "p" "" "U"] =
          pre ++ Subvol.mk 2 "x" "p" "" "U" :: post ∧
        ∀ z ∈ pre, ¬ Corresponds z (Subvol.mk 1 "U" "p" "" "")) ∧
    Corresponds (Subvol.mk 2 "x" "p" "" "U") (Subvol.mk 1 "U" "p" "" "") ∧
    ∀ z ∈ [Subvol.mk 2 "x" "p" "" "U", Subvol.mk 5 "y" "p" "" "U"],
      Corresponds z (Subvol.mk 1 "U" "p" "" "") →
        (Subvol.mk 2 "x" "p" "" "U").id ≤ z.id :=
  C10_first_match_lowest_id (Subvol.mk 1 "U" "p" "" "")
    [Subvol.mk 2 "x" "p" "" "U", Subvol.mk 5 "y" "p" "" "U"]
    (by decide) (Subvol.mk 2 "x" "p" "" "U") (by decide)

/-- When identities are unique in the inventory (a stated data-model
invariant), the first-match uuid lookup finds exactly the record with that
identity. -/
lemma get_subvol_rel_path_by_uuid_iff (u : String) (S : List Subvol)
    (hu : ∀ a ∈ S, ∀ b ∈ S, a.uuid = b.uuid → a = b) (p : String) :
    get_subvol_rel_path_by_uuid u S = some p ↔
      ∃ s ∈ S, s.uuid = u ∧ s.rel_path = p := by
  induction S with
  | nil => simp [get_subvol_rel_path_by_uuid]
  | cons a rest ih =>
    by_cases ha : a.uuid = u
    · simp only [get_subvol_rel_path_by_uuid, if_pos ha]
      constructor
      · intro h
        simp only [Option.some.injEq] at h
        exact ⟨a, List.mem_cons_self a rest, ha, h⟩
      · rintro ⟨t, ht, htu, htp⟩
        have : t = a := by
          rcases List.mem_cons.mp ht with rfl | ht
          · rfl
          · exact hu t (List.mem_cons_of_mem a ht) a (List.mem_cons_self a rest)
              (htu.trans ha.symm)
        subst this
        rw [htp]
    · simp only [get_subvol_rel_path_by_uuid, if_neg ha]
      rw [ih (fun x hx y hy => hu x (List.mem_cons_of_mem a hx) y
        (List.mem_cons_of_mem a hy))]
      constructor
      · rintro ⟨t, ht, htu, htp⟩
        exact ⟨t, List.mem_cons_of_mem a ht, htu, htp⟩
      · rintro ⟨t, ht, htu, htp⟩
        rcases List.mem_cons.mp ht with rfl | ht
        · exact absurd htu ha
        · exact ⟨t, ht, htu, htp⟩

/-- C2 counterexample: the claim's four conditions all hold -- the parent
identity u is non-empty, a source record with identity u exists, its path
exists on disk (constant-true oracle) and is read-only (constant-true
oracle) -- yet no parent path is returned, because the record's relative
path is the empty string and the source's Python truthiness test
`if parent_rel_path:` also rejects a found-but-empty path. -/
theorem C2_counterexample :
    ("u" : String) ≠ "" ∧
    (∃ s ∈ [Subvol.mk 1 "u" "" "" ""], s.uuid = "u" ∧
      (fun _ : String => true) (joinPath "/mnt/src" s.rel_path) = true ∧
      (fun _ : String => true) s.rel_path = true) ∧
    get_valid_src_parent_rel_path (fun _ => true) (fun _ => true)
      "/mnt/src" "u" [Subvol.mk 1 "u" "" "" ""] = none := by
  refine ⟨by decide, ⟨Subvol.mk 1 "u" "" "" "", by decide⟩, by decide⟩

/-- C2 as amended: assuming the data-model invariant that identities are
unique within the source inventory, the incremental-parent selection
returns a path p iff the parent identity is non-empty, the source inventory
holds a record with that identity whose relative path is p, p is non-empty
(the extra condition the counterexample forces), p still exists on disk,
and p is read-only at the source; and when it returns nothing the send
command is built with no -p basis. -/
theorem C2_parent_selection_amended (pathExists isReadonly : String → Bool)
    (src_dir parent_uuid : String) (S : List Subvol)
    (hu : ∀ a ∈ S, ∀ b ∈ S, a.uuid = b.uuid → a = b) :
    (∀ p, get_valid_src_parent_rel_path pathExists isReadonly src_dir
        parent_uuid S = some p ↔
      parent_uuid ≠ "" ∧ (∃ s ∈ S, s.uuid = parent_uuid ∧ s.rel_path = p) ∧
        p ≠ "" ∧ pathExists (joinPath src_dir p) = true ∧
        isReadonly p = true) ∧
    (∀ src_path rel, do_send_receive_send_cmd src_path rel none =
      ["btrfs", "-q", "send", joinPath src_path rel]) := by
  constructor
  · intro p
    constructor
    · intro h
      unfold get_valid_src_parent_rel_path at h
      by_cases hne : parent_uuid ≠ ""
      · rw [if_pos hne] at h
        cases hq : get_subvol_rel_path_by_uuid parent_uuid S with
        | none => rw [hq] at h; exact absurd h (by simp)
        | some q =>
          rw [hq] at h
          dsimp only at h
          by_cases h1 : q ≠ ""
          · rw [if_pos h1] at h
            by_cases h2 : pathExists (joinPath src_dir q)
            · rw [if_pos h2] at h
              by_cases h3 : isReadonly q
              · rw [if_pos h3] at h
                simp only [Option.some.injEq] at h
                subst h
                exact ⟨hne, (get_subvol_rel_path_by_uuid_iff parent_uuid S
                  hu q).mp hq, h1, h2, h3⟩
              · rw [if_neg h3] at h
                exact absurd h (by simp)
            · rw [if_neg h2] at h
              exact absurd h (by simp)
          · rw [if_neg h1] at h
            exact absurd h (by simp)
      · rw [if_neg hne] at h
        exact absurd h (by simp)
    · rintro ⟨hne, hex, hpne, hpe, hro⟩
      have hq : get_subvol_rel_path_by_uuid parent_uuid S = some p :=
        (get_subvol_rel_path_by_uuid_iff parent_uuid S hu p).mpr hex
      unfold get_valid_src_parent_rel_path
      rw [if_pos hne, hq]
      dsimp only
      rw [if_pos hpne, if_pos hpe, if_pos hro]
  · intro src_path rel
    rfl

/-- Witness for C2's amended theorem at a concrete input: a single source
record with identity u at non-empty path cli/snap, constant-true
filesystem oracles. -/
theorem C2_parent_selection_amended_witness :
    (∀ p, get_valid_src_parent_rel_path (fun _ => true) (fun _ => true)
        "/mnt/src" "u" [Subvol.mk 1 "u" "cli/snap" "" ""] = some p ↔
      ("u" : String) ≠ "" ∧
        (∃ s ∈ [Subvol.mk 1 "u" "cli/snap" "" ""], s.uuid = "u" ∧
          s.rel_path = p) ∧
        p ≠ "" ∧ (fun _ : String => true) (joinPath "/mnt/src" p) = true ∧
        (fun _ : String => true) p = true) ∧
    (∀ src_path rel, do_send_receive_send_cmd src_path rel none =
      ["btrfs", "-q", "send", joinPath src_path rel]) :=
  C2_parent_selection_amended (fun _ => true) (fun _ => true) "/mnt/src" "u"
    [Subvol.mk 1 "u" "cli/snap" "" ""] (by decide)

/-- C3 counterexample: the consumer (btrfs receive) exits with the non-zero
code 1 while the captured pipeline error text is empty; contrary to the
claim, the completed transfer is not reported as a failure -- the source
checks only `if errors:` and never consults the consumer's return code, so
nothing is routed to the central error handler. -/
theorem C3_counterexample :
    do_send_receive_reports_failure "" 1 = false ∧ (1 : Int) ≠ 0 ∧
    do_send_receive_outcome "" 1 false = none := by
  refine ⟨rfl, by decide, rfl⟩

/-- C3 as amended: a completed (non-dry-run) transfer is reported as a
failure, routed through the central error handler, iff the captured
pipeline error text is non-empty -- regardless of the consumer's exit code,
which the code never examines; when the handler fires it continues under
ignore-errors and raises exit 1 otherwise. -/
theorem C3_failure_condition_amended (errors : String) (rc : Int)
    (ignore_errors : Bool) :
    (do_send_receive_reports_failure errors rc = true ↔ errors ≠ "") ∧
    (∀ rc2 : Int, do_send_receive_reports_failure errors rc =
      do_send_receive_reports_failure errors rc2) ∧
    (do_send_receive_outcome errors rc ignore_errors =
      if errors ≠ "" then some (error_handler_control ignore_errors)
      else none) ∧
    error_handler_control true = RunControl.proceed ∧
    error_handler_control false = RunControl.exitWith 1 := by
  refine ⟨by simp [do_send_receive_reports_failure], fun rc2 => rfl, ?_,
    rfl, rfl⟩
  by_cases he : errors = "" <;>
    simp [do_send_receive_outcome, do_send_receive_reports_failure, he]

/-- C4: the claim says a fatal condition terminates the process with exit
code 1; in the code every way `main(args)` can end -- including a
`SystemExit 1` raised by `error_handler` without ignore-errors, and an
uncaught exception such as the configuration errors raised in `main` -- is
swallowed by the top-level `try` block, which falls through cleanup to a
normal interpreter exit with status 0. -/
theorem C4_exit_code_bug :
    main_block_exit_code (MainOutcome.systemExit 1) = 0 ∧
    main_block_exit_code MainOutcome.otherException = 0 ∧
    error_handler_control false = RunControl.exitWith 1 ∧
    (∀ o, main_block_exit_code o = 0) := by
  refine ⟨rfl, rfl, rfl, fun o => ?_⟩
  cases o <;> rfl

/-- C9 counterexample: on source stats (12,3,1,50) and destination stats
(5,1,0,90) the column-width computation yields (2,1,1,2) -- the widths of
the second and third columns are 1, not 2 as the claim states. -/
theorem C9_counterexample :
    get_max_column_sizes [["12", "3", "1", "50"], ["5", "1", "0", "90"]] =
        [2, 1, 1, 2] ∧
    ¬ (∀ w ∈ get_max_column_sizes
        [["12", "3", "1", "50"], ["5", "1", "0", "90"]], w = 2) := by
  refine ⟨by decide, by decide⟩

/-- C9 as amended: each numeric column is right-aligned to the maximum
width needed for that particular column across both endpoints' rows, so
source stats (12,3,1,50) and destination stats (5,1,0,90) yield the
per-column widths (2,1,1,2); the function also reproduces its own
docstring example, (123,'abc',0,123456) with ('a',1,'zz','123') giving
(3,3,2,6). -/
theorem C9_column_sizes_amended :
    get_max_column_sizes [["12", "3", "1", "50"], ["5", "1", "0", "90"]] =
        [2, 1, 1, 2] ∧
    get_max_column_sizes
        [["123", "abc", "0", "123456"], ["a", "1", "zz", "123"]] =
      [3, 3, 2, 6] := by
  refine ⟨by decide, by decide⟩

/-- Number of destination-inventory rebuilds in a trace. -/
def countBuildDst (l : List Event) : Nat :=
  l.countP (fun e => decide (e = Event.buildDst))

/-- With stats refresh enabled (verbose and a positive interval, no
dry-run), the transfer loop rebuilds the destination inventory once per
completed multiple of the interval. -/
lemma countBuildDst_loop_enabled (v N : Nat) (hv : 0 < v) (hN : 0 < N) :
    ∀ (cs : List SrcCase) (counter : Nat),
      countBuildDst (main_loop_events false v N cs counter) =
        (counter + num_transfers cs) / N - counter / N := by
  intro cs
  simp only [countBuildDst]
  induction cs with
  | nil =>
    intro counter
    simp [main_loop_events, num_transfers]
  | cons c rest ih =>
    intro counter
    have hblk : stats_refresh_block false v N counter =
        (if (counter + 1) % N = 0 then [Event.buildDst, Event.stats]
         else [], counter + 1) := by
      simp [stats_refresh_block, hv, hN]
    have harith1 : (counter + 1) % N = 0 →
        1 + ((counter + 1 + num_transfers rest) / N - (counter + 1) / N) =
          (counter + (num_transfers rest + 1)) / N - counter / N := by
      intro hm
      have hd : (counter + 1) / N = counter / N +
          if N ∣ counter + 1 then 1 else 0 := Nat.succ_div counter N
      rw [if_pos (Nat.dvd_iff_mod_eq_zero.mpr hm)] at hd
      have hmono : (counter + 1) / N ≤ (counter + 1 + num_transfers rest) / N :=
        Nat.div_le_div_right (Nat.le_add_right _ _)
      have he : counter + (num_transfers rest + 1) =
          counter + 1 + num_transfers rest := by omega
      rw [he]
      generalize (counter + 1 + num_transfers rest) / N = A at *
      generalize (counter + 1) / N = B at *
      generalize counter / N = C at *
      omega
    have harith0 : ¬ (counter + 1) % N = 0 →
        (counter + 1 + num_transfers rest) / N - (counter + 1) / N =
          (counter + (num_transfers rest + 1)) / N - counter / N := by
      intro hm
      have hd : (counter + 1) / N = counter / N +
          if N ∣ counter + 1 then 1 else 0 := Nat.succ_div counter N
      rw [if_neg (fun h => hm (Nat.dvd_iff_mod_eq_zero.mp h))] at hd
      have he : counter + (num_transfers rest + 1) =
          counter + 1 + num_transfers rest := by omega
      rw [he]
      generalize (counter + 1 + num_transfers rest) / N = A at *
      generalize (counter + 1) / N = B at *
      generalize counter / N = C at *
      omega
    cases c with
    | missing =>
      simp only [main_loop_events]
      rw [ih counter]
      simp [num_transfers, List.countP_cons]
    | matched =>
      simp only [main_loop_events, List.countP_cons]
      rw [ih counter]
      simp [num_transfers, List.countP_cons]
    | pendingFresh =>
      have hnum : num_transfers (SrcCase.pendingFresh :: rest) =
          num_transfers rest + 1 := by
        simp [num_transfers, List.countP_cons]
      simp only [main_loop_events, hblk, List.countP_cons,
        List.countP_append]
      rw [ih (counter + 1), hnum]
      by_cases hm : (counter + 1) % N = 0
      · rw [if_pos hm]
        have := harith1 hm
        simp [List.countP_cons]
        generalize (counter + 1 + num_transfers rest) / N = A at *
        generalize (counter + 1) / N = B at *
        generalize counter / N = C at *
        generalize (counter + (num_transfers rest + 1)) / N = E at *
        omega
      · rw [if_neg hm]
        have := harith0 hm
        simp [List.countP_cons]
        generalize (counter + 1 + num_transfers rest) / N = A at *
        generalize (counter + 1) / N = B at *
        generalize counter / N = C at *
        generalize (counter + (num_transfers rest + 1)) / N = E at *
        omega
    | pendingStale =>
      have hnum : num_transfers (SrcCase.pendingStale :: rest) =
          num_transfers rest + 1 := by
        simp [num_transfers, List.countP_cons]
      simp only [main_loop_events, hblk, List.countP_cons,
        List.countP_append]
      rw [ih (counter + 1), hnum]
      by_cases hm : (counter + 1) % N = 0
      · rw [if_pos hm]
        have := harith1 hm
        simp [List.countP_cons]
        generalize (counter + 1 + num_transfers rest) / N = A at *
        generalize (counter + 1) / N = B at *
        generalize counter / N = C at *
        generalize (counter + (num_transfers rest + 1)) / N = E at *
        omega
      · rw [if_neg hm]
        have := harith0 hm
        simp [List.countP_cons]
        generalize (counter + 1 + num_transfers rest) / N = A at *
        generalize (counter + 1) / N = B at *
        generalize counter / N = C at *
        generalize (counter + (num_transfers rest + 1)) / N = E at *
        omega

/-- With the refresh disabled -- verbosity 0, interval 0, or dry-run --
the transfer loop never rebuilds the destination inventory. -/
lemma countBuildDst_loop_disabled (dr : Bool) (v N : Nat)
    (h : v = 0 ∨ N = 0 ∨ dr = true) :
    ∀ (cs : List SrcCase) (counter : Nat),
      countBuildDst (main_loop_events dr v N cs counter) = 0 := by
  intro cs
  induction cs with
  | nil =>
    intro counter
    simp [main_loop_events, countBuildDst]
  | cons c rest ih =>
    intro counter
    have hblk : countBuildDst (stats_refresh_block dr v N counter).1 = 0 := by
      rcases h with h | h | h
      · simp [stats_refresh_block, h, countBuildDst]
      · simp [stats_refresh_block, h, countBuildDst]
      · by_cases he : 0 < v ∧ 0 < N
        · subst h
          simp only [stats_refresh_block, if_pos he]
          by_cases hm : (counter + 1) % N = 0 <;>
            simp [hm, countBuildDst]
        · simp [stats_refresh_block, if_neg he, countBuildDst]
    cases c with
    | missing => simpa [main_loop_events] using ih counter
    | matched =>
      simp only [main_loop_events]
      rw [countBuildDst, List.countP_cons]
      simpa [countBuildDst] using ih counter
    | pendingFresh =>
      simp only [main_loop_events]
      rw [countBuildDst, List.countP_cons, List.countP_cons,
        List.countP_append]
      have h1 := ih (stats_refresh_block dr v N counter).2
      rw [countBuildDst] at h1 hblk
      simp [countBuildDst, h1, hblk]
    | pendingStale =>
      simp only [main_loop_events]
      rw [countBuildDst, List.countP_cons, List.countP_cons,
        List.countP_cons, List.countP_append]
      have h1 := ih (stats_refresh_block dr v N counter).2
      rw [countBuildDst] at h1 hblk
      simp [countBuildDst, h1, hblk]

/-- The transfer loop never begins with an inventory rebuild: its first
event, if any, is a matching decision. -/
lemma main_loop_events_head (dr : Bool) (v N : Nat) :
    ∀ (cs : List SrcCase) (counter : Nat),
      (main_loop_events dr v N cs counter).head? ≠ some Event.buildDst := by
  intro cs
  induction cs with
  | nil => intro counter; simp [main_loop_events]
  | cons c rest ih =>
    intro counter
    cases c with
    | missing => simpa [main_loop_events] using ih counter
    | matched => simp [main_loop_events]
    | pendingFresh => simp [main_loop_events]
    | pendingStale => simp [main_loop_events]

/-- C5 counterexample: in a run with delete-strays on, one pending source
subvol and verbosity 0, the full trace rebuilds the destination inventory
only once, at run start -- no rebuild follows the stray-deletion pass (a
matching decision and a transfer run against the start-of-run inventory),
contrary to the claim; and even with interval 1, a successful transfer
triggers no rebuild when verbosity is 0, so the refresh is not driven by
transfer count alone. -/
theorem C5_counterexample :
    main_events true false 0 10 [SrcCase.pendingFresh] =
      [Event.buildSrc, Event.buildDst, Event.stats, Event.rsync,
       Event.deleteStrays, Event.lookupDst, Event.transfer, Event.stats] ∧
    Event.buildDst ∉
      (main_events true false 0 10 [SrcCase.pendingFresh]).drop 2 ∧
    countBuildDst (main_events false false 0 1 [SrcCase.pendingFresh]) = 1 := by
  refine ⟨by decide, by decide, by decide⟩

/-- C5 as amended: the destination inventory is rebuilt wholesale at run
start; it is rebuilt after every N transfer attempts only when verbosity is
positive, the interval N is positive, and dry-run is off (N = 0 or
verbosity 0 disables the periodic refresh); it is never rebuilt after the
stray-deletion pass -- the transfer loop that follows the pass always
starts with a matching decision, never with a rebuild. -/
theorem C5_inventory_refresh_amended (ds dr : Bool) (v N : Nat)
    (cases : List SrcCase) :
    (main_events ds dr v N cases).take 2 =
        [Event.buildSrc, Event.buildDst] ∧
    countBuildDst (main_events ds dr v N cases) =
      1 + (if 0 < v ∧ 0 < N ∧ dr = false then num_transfers cases / N
        else 0) ∧
    (∀ (cs : List SrcCase) (counter : Nat),
      (main_loop_events dr v N cs counter).head? ≠ some Event.buildDst) := by
  refine ⟨by cases ds <;> rfl, ?_, main_loop_events_head dr v N⟩
  by_cases he : 0 < v ∧ 0 < N ∧ dr = false
  · obtain ⟨hv, hN, hdr⟩ := he
    subst hdr
    rw [if_pos ⟨hv, hN, rfl⟩]
    have hl := countBuildDst_loop_enabled v N hv hN cases 0
    simp only [countBuildDst] at hl
    simp only [Nat.zero_add, Nat.zero_div, Nat.sub_zero] at hl
    cases ds <;>
      simp [main_events, countBuildDst, List.countP_append,
        List.countP_cons, hl, Nat.add_comm]
  · rw [if_neg he]
    have hdis : v = 0 ∨ N = 0 ∨ dr = true := by
      rcases Nat.eq_zero_or_pos v with hv | hv
      · exact Or.inl hv
      rcases Nat.eq_zero_or_pos N with hN | hN
      · exact Or.inr (Or.inl hN)
      cases hdr : dr
      · exact absurd ⟨hv, hN, rfl⟩ (hdr ▸ he)
      · exact Or.inr (Or.inr rfl)
    have hl := countBuildDst_loop_disabled dr v N hdis cases 0
    simp only [countBuildDst] at hl
    cases ds <;>
      simp [main_events, countBuildDst, List.countP_append,
        List.countP_cons, hl]

/-- Witness for C5's amended theorem at a concrete input: delete-strays on,
no dry-run, verbosity 1, interval 2, two pending subvols -- the trace
starts with the two inventory builds, contains 1 + 2 / 2 = 2 destination
rebuilds in total, and the loop trace never begins with a rebuild. -/
theorem C5_inventory_refresh_amended_witness :
    (main_events true false 1 2
        [SrcCase.pendingFresh, SrcCase.pendingStale]).take 2 =
        [Event.buildSrc, Event.buildDst] ∧
    countBuildDst (main_events true false 1 2
        [SrcCase.pendingFresh, SrcCase.pendingStale]) =
      1 + (if 0 < 1 ∧ 0 < 2 ∧ false = false then
        num_transfers [SrcCase.pendingFresh, SrcCase.pendingStale] / 2
        else 0) ∧
    (∀ (cs : List SrcCase) (counter : Nat),
      (main_loop_events false 1 2 cs counter).head? ≠
        some Event.buildDst) :=
  C5_inventory_refresh_amended true false 1 2
    [SrcCase.pendingFresh, SrcCase.pendingStale]

/-- Under dry-run, deleting a batch of destination subvolumes leaves the
state untouched: every iteration runs the echo no-op. -/
lemma delete_dst_subvols_state_dryrun (paths : List String) :
    ∀ st, delete_dst_subvols_state true paths st = st := by
  induction paths with
  | nil => intro st; rfl
  | cons p rest ih =>
    intro st
    rw [show delete_dst_subvols_state true (p :: rest) st =
        delete_dst_subvols_state true rest st from rfl]
    exact ih st

/-- Under dry-run, the directory-deletion pass leaves the state untouched:
every iteration logs and continues. -/
lemma delete_dst_directory_state_dryrun (paths : List String) :
    ∀ st, delete_dst_directory_state true paths st = st := by
  induction paths with
  | nil => intro st; rfl
  | cons p rest ih =>
    intro st
    rw [show delete_dst_directory_state true (p :: rest) st =
        delete_dst_directory_state true rest st from rfl]
    exact ih st

/-- Under dry-run, the whole stray-deletion pass leaves the state
untouched. -/
lemma delete_stray_destinations_state_dryrun (S D : List Subvol)
    (dirs : List String) (st : DstState) :
    delete_stray_destinations_state true S D dirs st = st := by
  unfold delete_stray_destinations_state
  simp only [delete_dst_subvols_state_dryrun,
    delete_dst_directory_state_dryrun]
  split <;> split <;> rfl

/-- Under dry-run, one iteration of the transfer loop leaves the state
untouched: the lookup decides, but the stale-subvol deletion runs the echo
no-op and the send/receive returns before doing anything. -/
lemma main_step_state_dryrun (D : List Subvol) (ex : String → Bool)
    (sv : Subvol) (st : DstState) :
    main_step_state true D ex sv st = st := by
  unfold main_step_state
  split
  · cases hget : get_dst_subvol_by_src_subvol sv D with
    | some d => simp [hget]
    | none =>
      simp only [hget]
      rw [delete_dst_subvols_state_dryrun]
      split <;> rfl
  · rfl

/-- Under dry-run, the transfer loop over any source inventory leaves the
state untouched. -/
lemma main_loop_state_dryrun (D : List Subvol) (ex : String → Bool) :
    ∀ (S : List Subvol) (st : DstState),
      S.foldl (fun s sv => main_step_state true D ex sv s) st = st := by
  intro S
  induction S with
  | nil => intro st; rfl
  | cons sv rest ih =>
    intro st
    rw [show (sv :: rest).foldl (fun s v => main_step_state true D ex v s) st =
        rest.foldl (fun s v => main_step_state true D ex v s)
          (main_step_state true D ex sv st) from rfl,
      main_step_state_dryrun]
    exact ih st

/-- C6: with dry-run enabled no mutating operation reaches the destination:
the send/receive returns before launching anything, external commands are
replaced by the echo no-op (so batch subvolume deletion, the stray pass and
the rsync pass are identities), directory creation and removal are skipped,
and the destination state after a whole run of main equals the state
before, for every operation type. -/
theorem C6_dry_run_purity (st : DstState) (p q : String)
    (paths : List String) (S D : List Subvol) (dirs : List String)
    (ex : String → Bool) (ds : Bool) (cmd : Cmd) :
    do_send_receive_state true p q st = st ∧
    run_cmd_state cmd true st = st ∧
    makedirs_if_missing_state true p st = st ∧
    delete_dst_subvols_state true paths st = st ∧
    delete_dst_directory_state true paths st = st ∧
    delete_stray_destinations_state true S D dirs st = st ∧
    rsync_copy_misc_state true st = st ∧
    main_run_state ds true S D dirs ex st = st := by
  refine ⟨rfl, rfl, ?_, delete_dst_subvols_state_dryrun paths st,
    delete_dst_directory_state_dryrun paths st,
    delete_stray_destinations_state_dryrun S D dirs st, rfl, ?_⟩
  · unfold makedirs_if_missing_state
    split <;> rfl
  · unfold main_run_state main_stray_stage
    rw [show rsync_copy_misc_state true st = st from rfl]
    rw [main_loop_state_dryrun]
    split
    · rw [delete_stray_destinations_state_dryrun]
    · rfl

/-- Without dry-run, batch subvolume deletion removes exactly the listed
paths from the destination's subvolume set. -/
lemma delete_dst_subvols_state_subvols (paths : List String) :
    ∀ st : DstState, (delete_dst_subvols_state false paths st).subvol_paths =
      st.subvol_paths.filter (fun q => decide (¬ q ∈ paths)) := by
  induction paths with
  | nil =>
    intro st
    show st.subvol_paths = _
    simp
  | cons p rest ih =>
    intro st
    have step : delete_dst_subvols_state false (p :: rest) st =
        delete_dst_subvols_state false rest
          { st with subvol_paths := st.subvol_paths.filter (fun q => q ≠ p) } := by
      rfl
    rw [step, ih]
    simp only [List.filter_filter]
    apply List.filter_congr
    intro x hx
    by_cases h1 : x ∈ rest <;> by_cases h2 : x = p <;>
      simp [h1, h2, List.mem_cons]

/-- The directory-deletion pass never touches the subvolume set. -/
lemma delete_dst_directory_state_subvols (dr : Bool) (paths : List String) :
    ∀ st : DstState, (delete_dst_directory_state dr paths st).subvol_paths =
      st.subvol_paths := by
  induction paths with
  | nil => intro st; rfl
  | cons p rest ih =>
    intro st
    cases dr <;> simp only [delete_dst_directory_state, List.foldl_cons] <;>
      exact
      ih _

/-- C7: the stray destination subvolumes are exactly the destination
records whose relative path occurs as the relative path of no source
record -- a pure path-set difference; on source paths a,b and destination
paths a,b,c the strays are exactly c; with delete-strays on and dry-run
off the pass removes exactly the strays from the destination's subvolume
set, with dry-run on it leaves the whole state untouched, and with
delete-strays off the pass is never invoked. -/
theorem C7_stray_computation (S D : List Subvol) (p : String)
    (dirs : List String) (st : DstState) (dr : Bool) :
    (p ∈ stray_dst_subvol_paths S D ↔
      p ∈ D.map (fun s => s.rel_path) ∧
        ¬ p ∈ S.map (fun s => s.rel_path)) ∧
    (stray_dst_subvol_paths
        [Subvol.mk 1 "s1" "a" "" "", Subvol.mk 2 "s2" "b" "" ""]
        [Subvol.mk 1 "d1" "a" "" "", Subvol.mk 2 "d2" "b" "" "",
          Subvol.mk 3 "d3" "c" "" ""] = ["c"]) ∧
    ((delete_stray_destinations_state false S D dirs st).subvol_paths =
      st.subvol_paths.filter
        (fun q => decide (¬ q ∈ stray_dst_subvol_paths S D))) ∧
    (delete_stray_destinations_state true S D dirs st = st) ∧
    (main_stray_stage false dr S D dirs st = st) := by
  refine ⟨?_, by decide, ?_,
    delete_stray_destinations_state_dryrun S D dirs st, rfl⟩
  · simp [stray_dst_subvol_paths, List.mem_dedup, List.mem_filter]
  · unfold delete_stray_destinations_state
    dsimp only
    by_cases h1 : stray_dst_subvol_paths S D = []
    · rw [if_pos h1]
      split
      · simp [h1]
      · rw [delete_dst_directory_state_subvols]
        simp [h1]
    · rw [if_neg h1]
      split
      · exact delete_dst_subvols_state_subvols _ st
      · rw [delete_dst_directory_state_subvols]
        exact delete_dst_subvols_state_subvols _ st

/-- A list of subvols weakly sorted by id with no duplicate ids is strictly
sorted by id. -/
lemma pairwise_lt_of_le_nodup :
    ∀ l : List Subvol, List.Pairwise (fun a b => a.id ≤ b.id) l →
      (l.map (fun s => s.id)).Nodup →
      List.Pairwise (fun a b => a.id < b.id) l := by
  intro l
  induction l with
  | nil => intro _ _; constructor
  | cons a rest ih =>
    intro hle hnd
    rcases List.pairwise_cons.mp hle with ⟨ha, hrest⟩
    rw [List.map_cons, List.nodup_cons] at hnd
    refine List.pairwise_cons.mpr ⟨?_, ih hrest hnd.2⟩
    intro b hb
    refine lt_of_le_of_ne (ha b hb) ?_
    intro he
    exact hnd.1 (he ▸ List.mem_map_of_mem (fun s => s.id) hb)

/-- C8: for every parse function and every list of listing-output lines,
the inventory returned by build_subvols is sorted by the numeric id field
in ascending order and is a permutation of the records parsed from the
lines; moreover, when the parsed records carry distinct ids, any reordering
of the parsed output yields the identical inventory, so iteration order is
deterministic regardless of the order in which lines appear. -/
theorem C8_build_subvols_sorted (parse : String → Option Subvol)
    (lines : List String) :
    List.Pairwise (fun a b => a.id ≤ b.id) (build_subvols parse lines) ∧
    (build_subvols parse lines).Perm (lines.filterMap parse) ∧
    (∀ lines2 : List String,
      (lines.filterMap parse).Perm (lines2.filterMap parse) →
      ((lines.filterMap parse).map (fun s => s.id)).Nodup →
      build_subvols parse lines = build_subvols parse lines2) := by
  have hsorted : ∀ l : List Subvol,
      List.Pairwise (fun a b => a.id ≤ b.id)
        (l.mergeSort (fun a b => decide (a.id ≤ b.id))) := by
    intro l
    have h := @List.sorted_mergeSort Subvol
      (fun a b : Subvol => decide (a.id ≤ b.id))
      (fun a b c h1 h2 => by
        simp only [decide_eq_true_eq] at h1 h2 ⊢
        omega)
      (fun a b => by
        by_cases hab : a.id ≤ b.id
        · simp [hab]
        · simp only [Bool.or_eq_true, decide_eq_true_eq]
          omega)
      l
    exact h.imp (fun hab => by simpa using hab)
  refine ⟨hsorted _, List.mergeSort_perm _ _, ?_⟩
  intro lines2 hperm hnd
  haveI : IsAntisymm Subvol (fun a b => a.id < b.id) :=
    ⟨fun a b h1 h2 => absurd (lt_trans h1 h2) (lt_irrefl _)⟩
  have hp1 : (build_subvols parse lines).Perm (lines.filterMap parse) :=
    List.mergeSort_perm _ _
  have hp2 : (build_subvols parse lines2).Perm (lines2.filterMap parse) :=
    List.mergeSort_perm _ _
  have hp : (build_subvols parse lines).Perm (build_subvols parse lines2) :=
    (hp1.trans hperm).trans hp2.symm
  have hnd1 : ((build_subvols parse lines).map (fun s => s.id)).Nodup :=
    (hp1.map (fun s => s.id)).nodup_iff.mpr hnd
  have hnd2 : ((build_subvols parse lines2).map (fun s => s.id)).Nodup :=
    (hp.map (fun s => s.id)).symm.nodup_iff.mpr hnd1
  exact List.eq_of_perm_of_sorted hp
    (pairwise_lt_of_le_nodup _ (hsorted _) hnd1)
    (pairwise_lt_of_le_nodup _ (hsorted _) hnd2)

/-- Witness for C8 at a concrete input: a two-line listing parsed to
records with ids 2 and 1; reversing the line order gives the identical
sorted inventory. -/
theorem C8_build_subvols_sorted_witness :
    build_subvols
        (fun l => if l = "a" then some (Subvol.mk 2 "ua" "pa" "" "")
          else if l = "b" then some (Subvol.mk 1 "ub" "pb" "" "")
          else none) ["a", "b"] =
      build_subvols
        (fun l => if l = "a" then some (Subvol.mk 2 "ua" "pa" "" "")
          else if l = "b" then some (Subvol.mk 1 "ub" "pb" "" "")
          else none) ["b", "a"] :=
  (C8_build_subvols_sorted
    (fun l => if l = "a" then some (Subvol.mk 2 "ua" "pa" "" "")
      else if l = "b" then some (Subvol.mk 1 "ub" "pb" "" "")
      else none) ["a", "b"]).2.2 ["b", "a"] (by decide) (by decide)

end UrbClone
